import Mathlib

/-!
Verification of the TrueSource provenance-chain design.

The repository's executable code under version control is the React
front-end (ProductManager.jsx and App.jsx) plus operational tooling; the
core provenance logic (hashing and signature verification, chain
validator, provenance store, query engine) is described by the design
document but is not present as code.  Those components are therefore
modelled here directly from the design document's wording, and the
front-end submission handlers are embedded from ProductManager.jsx.
-/

/-- Decidable equality of Except values, used to evaluate validator
results on concrete inputs. -/
instance {ε α : Type _} [DecidableEq ε] [DecidableEq α] : DecidableEq (Except ε α) := fun x y =>
  match x, y with
  | Except.ok a, Except.ok b =>
      if h : a = b then isTrue (by rw [h])
      else isFalse (fun hc => h (Except.ok.inj hc))
  | Except.error a, Except.error b =>
      if h : a = b then isTrue (by rw [h])
      else isFalse (fun hc => h (Except.error.inj hc))
  | Except.ok _, Except.error _ => isFalse (fun hc => Except.noConfusion hc)
  | Except.error _, Except.ok _ => isFalse (fun hc => Except.noConfusion hc)

namespace TrueSource

/-- Modelled from the spec: the entry type, one of Create, Transfer,
Repair, Retire. -/
inductive EntryType where
  | Create
  | Transfer
  | Repair
  | Retire
deriving DecidableEq, Repr

/-- Modelled from the spec: a chain entry, the immutable data unit
representing one event in a product's history.  Hashes and signatures are
modelled as natural numbers; `previousEntryHash` is absent (the genesis
sentinel) only for Create entries. -/
structure ChainEntry where
  productId : String
  entryType : EntryType
  previousEntryHash : Option Nat
  currentOwner : String
  nextOwner : String
  timestamp : Nat
  metadata : String
  signature : Nat
deriving DecidableEq, Repr

/-- Modelled from the spec: the taxonomy of rejection reasons (error
handling design, section 7). -/
inductive RejectionReason where
  | InvalidSignature
  | StructurallyInvalidInput
  | DuplicateGenesis
  | ChainClosed
  | LinkageBroken
  | OwnershipMismatch
  | TimestampRegression
  | DegenerateTransfer
  | InvalidRange
  | NotFound
deriving DecidableEq, Repr

/-- Modelled from the spec: the reserved retirement sentinel identity used
as `nextOwner` of a Retire entry. -/
def retireSentinel : String := "RETIRED"

/-- Numeric code of a string, used by the modelled digest and the modelled
signature scheme. -/
def strCode (s : String) : Nat :=
  s.data.foldl (fun h c => h * 256 + c.toNat) 1

/-- Numeric tag of an entry type, used by the modelled digest. -/
def typeCode : EntryType → Nat
  | EntryType.Create => 0
  | EntryType.Transfer => 1
  | EntryType.Repair => 2
  | EntryType.Retire => 3

/-- Modelled from the spec: `digest(entry)`, a deterministic canonical
digest of all fields except `signature` (Hashing and Signature Verifier,
section 4.1).  The concrete mixing function stands in for the unspecified
hash algorithm; what matters is that it is a pure deterministic function
of every field except the signature. -/
def digest (e : ChainEntry) : Nat :=
  (((((strCode e.productId * 31 + typeCode e.entryType) * 31 +
      (match e.previousEntryHash with
       | none => 0
       | some h => h + 1)) * 31 +
      strCode e.currentOwner) * 31 +
      strCode e.nextOwner) * 31 +
      e.timestamp) * 31 + strCode e.metadata

/-- Modelled from the spec: producing a signature with the private key of
the holder of `pk` over a digest.  The toy algebraic scheme stands in for
the unspecified asymmetric signature algorithm. -/
def signWith (pk : String) (d : Nat) : Nat :=
  Nat.pair (strCode pk) d

/-- Modelled from the spec: `verify(signature, digest, publicKey)`, pure
boolean asymmetric verification (section 4.1): true exactly when the
signature was produced over this digest by the holder of this key. -/
def verify (sig : Nat) (d : Nat) (pk : String) : Bool :=
  sig == Nat.pair (strCode pk) d

/-- Modelled from the spec: step 6 of `submit`, the type-specific rule.
Repair requires `nextOwner == currentOwner`; Transfer and Create require
`nextOwner != currentOwner` (a transfer to oneself is rejected as
DegenerateTransfer); Retire requires `nextOwner` equal to the reserved
retirement sentinel.  The spec names no rejection reason for a violating
Repair or Retire entry, so OwnershipMismatch is used for those. -/
def typeRule (c : ChainEntry) : Except RejectionReason ChainEntry :=
  match c.entryType with
  | EntryType.Repair =>
      if c.nextOwner = c.currentOwner then Except.ok c
      else Except.error RejectionReason.OwnershipMismatch
  | EntryType.Transfer =>
      if c.nextOwner = c.currentOwner then Except.error RejectionReason.DegenerateTransfer
      else Except.ok c
  | EntryType.Create =>
      if c.nextOwner = c.currentOwner then Except.error RejectionReason.DegenerateTransfer
      else Except.ok c
  | EntryType.Retire =>
      if c.nextOwner = retireSentinel then Except.ok c
      else Except.error RejectionReason.OwnershipMismatch

/-- Modelled from the spec: `submit(candidateEntry)` of the Chain
Validator (section 4.2), as a pure decision function over the candidate
and the product's current tail, with the spec's steps in order,
short-circuiting on first failure:
1. tail absent means only Create is acceptable (the spec names no reason
   for a non-Create entry on an absent tail, so NotFound is used); a tail
   present rejects Create as DuplicateGenesis;
2. a Retire tail rejects as ChainClosed;
3. signature verification against `currentOwner`, failure InvalidSignature;
4. linkage (`previousEntryHash = digest tail`, failure LinkageBroken) then
   ownership continuity (`currentOwner = tail.nextOwner`, failure
   OwnershipMismatch);
5. timestamp monotonicity, failure TimestampRegression;
6. the type-specific rule. -/
def submit (tail : Option ChainEntry) (c : ChainEntry) : Except RejectionReason ChainEntry :=
  match tail with
  | none =>
      if c.entryType ≠ EntryType.Create then Except.error RejectionReason.NotFound
      else if ¬ verify c.signature (digest c) c.currentOwner then
        Except.error RejectionReason.InvalidSignature
      else typeRule c
  | some t =>
      if c.entryType = EntryType.Create then Except.error RejectionReason.DuplicateGenesis
      else if t.entryType = EntryType.Retire then Except.error RejectionReason.ChainClosed
      else if ¬ verify c.signature (digest c) c.currentOwner then
        Except.error RejectionReason.InvalidSignature
      else if c.previousEntryHash ≠ some (digest t) then
        Except.error RejectionReason.LinkageBroken
      else if c.currentOwner ≠ t.nextOwner then
        Except.error RejectionReason.OwnershipMismatch
      else if c.timestamp < t.timestamp then
        Except.error RejectionReason.TimestampRegression
      else typeRule c

/-- Modelled from the spec: the Provenance Store (section 4.3), an
append-only record of accepted entries in acceptance order; each
product's chain is the subsequence of entries carrying its productId. -/
structure Store where
  log : List ChainEntry
deriving DecidableEq, Repr

/-- Modelled from the spec: `historyOf(productId)`, the ordered sequence
of accepted entries of one product, creation-order, oldest first. -/
def Store.historyOf (s : Store) (pid : String) : List ChainEntry :=
  s.log.filter (fun e => e.productId == pid)

/-- Modelled from the spec: `tailOf(productId)`, the most recently
accepted entry for a product's chain, if any. -/
def Store.tailOf (s : Store) (pid : String) : Option ChainEntry :=
  (s.historyOf pid).getLast?

/-- Modelled from the spec: validating a candidate against the product's
current tail and, on success, durably appending it as the new tail
(control flow of section 2 and the append operation of section 4.3). -/
def submitToStore (s : Store) (c : ChainEntry) : Except RejectionReason Store :=
  match submit (s.tailOf c.productId) c with
  | Except.ok e => Except.ok ⟨s.log ++ [e]⟩
  | Except.error r => Except.error r

/-- States of the Provenance Store reachable from the empty store by
successful submissions; these are exactly the stores holding only
accepted chains. -/
inductive Reachable : Store → Prop where
  | empty : Reachable ⟨[]⟩
  | step {s s' : Store} {c : ChainEntry} :
      Reachable s → submitToStore s c = Except.ok s' → Reachable s'

/-- Modelled from the spec: the scan filter of section 4.3, a
configuration of recognized options; an unset option imposes no
constraint. -/
structure ScanFilter where
  owner : Option String
  previousOwner : Option String
  timeRangeStart : Option Nat
  timeRangeEnd : Option Nat
deriving DecidableEq, Repr

/-- Modelled from the spec: whether one entry satisfies every set option
of a filter: `owner` matches entries whose currentOwner or nextOwner
equals the value, `previousOwner` matches entries whose currentOwner
equals the value, and the time-range bounds are inclusive bounds on the
timestamp; all set options are ANDed. -/
def matchesFilter (f : ScanFilter) (e : ChainEntry) : Bool :=
  (match f.owner with
   | none => true
   | some o => e.currentOwner == o || e.nextOwner == o) &&
  (match f.previousOwner with
   | none => true
   | some o => e.currentOwner == o) &&
  (match f.timeRangeStart with
   | none => true
   | some t => decide (t ≤ e.timestamp)) &&
  (match f.timeRangeEnd with
   | none => true
   | some t => decide (e.timestamp ≤ t))

/-- Ordering used by scan results: an entry comes before another when its
timestamp is at least as large (most-recent-first). -/
def moreRecentFirst (a b : ChainEntry) : Prop :=
  b.timestamp ≤ a.timestamp

instance : DecidableRel moreRecentFirst :=
  fun a b => Nat.decLe b.timestamp a.timestamp

instance : IsTotal ChainEntry moreRecentFirst :=
  ⟨fun a b => Nat.le_total b.timestamp a.timestamp⟩

instance : IsTrans ChainEntry moreRecentFirst :=
  ⟨fun _ _ _ h1 h2 => Nat.le_trans h2 h1⟩

/-- Modelled from the spec: `scan(filter)`, the entries across all
products matching every set option, ordered by timestamp,
most-recent-first (section 4.3). -/
def scan (s : Store) (f : ScanFilter) : List ChainEntry :=
  List.insertionSort moreRecentFirst (s.log.filter (matchesFilter f))

/-- Modelled from the spec: the raw filter parameters accepted by the
Query Engine (section 4.4). -/
structure RawQuery where
  owner : Option String
  previousOwner : Option String
  startTime : Option Nat
  endTime : Option Nat
deriving DecidableEq, Repr

/-- Modelled from the spec: the Query Engine (section 4.4), a thin
translation layer: it validates time-range ordering (start ≤ end, else
InvalidRange) and delegates to `scan`. -/
def query (s : Store) (q : RawQuery) : Except RejectionReason (List ChainEntry) :=
  match q.startTime, q.endTime with
  | some a, some b =>
      if b < a then Except.error RejectionReason.InvalidRange
      else Except.ok (scan s ⟨q.owner, q.previousOwner, q.startTime, q.endTime⟩)
  | _, _ => Except.ok (scan s ⟨q.owner, q.previousOwner, q.startTime, q.endTime⟩)

end TrueSource

namespace Frontend

/-- Wallet state as exposed by useWallet in ProductManager.jsx: a
possibly-absent public key and the connected flag. -/
structure WalletState where
  publicKey : Option String
  connected : Bool

/-- An HTTP request issued by the front-end: method target URL and the
body fields, embedded from the axios calls in ProductManager.jsx. -/
structure ApiRequest where
  url : String
  body : List (String × String)

/-- Outcome of a front-end submission handler: an error message shown
without any API request, an API request, or a JavaScript TypeError from
evaluating publicKey.toString() when publicKey is null. -/
inductive SubmitOutcome where
  | walletError (msg : String)
  | request (r : ApiRequest)
  | crash

/-- Evaluation of publicKey.toString() in JavaScript: crashes when
publicKey is null, otherwise continues with the string. -/
def pkToString (pk : Option String) (k : String → SubmitOutcome) : SubmitOutcome :=
  match pk with
  | none => SubmitOutcome.crash
  | some p => k p

/-- The API base URL of ProductManager.jsx (its default value). -/
def apiUrl : String := "http://localhost:3000/api"

/-- Embedded from createProduct in ProductManager.jsx: when no wallet is
connected it shows an error and returns; otherwise it posts the product
id, metadata and publicKey.toString() to the products endpoint. -/
def createProduct (w : WalletState) (productId metadata : String) : SubmitOutcome :=
  if ¬ w.connected then
    SubmitOutcome.walletError "Please connect your wallet first"
  else
    pkToString w.publicKey (fun pk =>
      SubmitOutcome.request
        ⟨apiUrl ++ "/products",
         [("productId", productId), ("metadata", metadata),
          ("manufacturerPublicKey", pk)]⟩)

/-- Embedded from transferProduct in ProductManager.jsx: when no wallet
is connected it shows an error and returns; otherwise it posts
publicKey.toString() and the next owner to the transfer endpoint. -/
def transferProduct (w : WalletState) (productId nextOwner : String) : SubmitOutcome :=
  if ¬ w.connected then
    SubmitOutcome.walletError "Please connect your wallet first"
  else
    pkToString w.publicKey (fun pk =>
      SubmitOutcome.request
        ⟨apiUrl ++ "/products/" ++ productId ++ "/transfer",
         [("currentOwnerPublicKey", pk), ("nextOwnerPublicKey", nextOwner)]⟩)

/-- Embedded from recordRepair in ProductManager.jsx: when no wallet is
connected it shows an error and returns; otherwise it posts
publicKey.toString() and the repair metadata to the repair endpoint. -/
def recordRepair (w : WalletState) (productId metadata : String) : SubmitOutcome :=
  if ¬ w.connected then
    SubmitOutcome.walletError "Please connect your wallet first"
  else
    pkToString w.publicKey (fun pk =>
      SubmitOutcome.request
        ⟨apiUrl ++ "/products/" ++ productId ++ "/repair",
         [("ownerPublicKey", pk), ("repairMetadata", metadata)]⟩)

end Frontend

namespace TrueSource

/-- Modelled from the spec: the type-specific rule of step 6 as a
predicate on the candidate entry. -/
def typeRuleOk (c : ChainEntry) : Prop :=
  match c.entryType with
  | EntryType.Repair => c.nextOwner = c.currentOwner
  | EntryType.Transfer => c.nextOwner ≠ c.currentOwner
  | EntryType.Create => c.nextOwner ≠ c.currentOwner
  | EntryType.Retire => c.nextOwner = retireSentinel

/-- Modelled from the spec: steps 1 through 5 of `submit` all pass, so
control reaches the type-specific rule. -/
def stepsPass (tail : Option ChainEntry) (c : ChainEntry) : Prop :=
  match tail with
  | none =>
      c.entryType = EntryType.Create ∧
      verify c.signature (digest c) c.currentOwner = true
  | some t =>
      c.entryType ≠ EntryType.Create ∧
      t.entryType ≠ EntryType.Retire ∧
      verify c.signature (digest c) c.currentOwner = true ∧
      c.previousEntryHash = some (digest t) ∧
      c.currentOwner = t.nextOwner ∧
      t.timestamp ≤ c.timestamp

instance : (tail : Option ChainEntry) → (c : ChainEntry) → Decidable (stepsPass tail c)
  | none, c => inferInstanceAs (Decidable (_ ∧ _))
  | some _, _ => inferInstanceAs (Decidable (_ ∧ _ ∧ _ ∧ _ ∧ _ ∧ _))

theorem typeRule_ok {c e : ChainEntry} (h : typeRule c = Except.ok e) :
    e = c ∧ typeRuleOk c := by
  unfold typeRule at h
  unfold typeRuleOk
  split at h <;> split_ifs at h with hcond <;>
    first
      | exact ⟨(Except.ok.inj h).symm, hcond⟩
      | exact Except.noConfusion h

theorem typeRule_of_ok {c : ChainEntry} (h : typeRuleOk c) : typeRule c = Except.ok c := by
  unfold typeRuleOk at h
  unfold typeRule
  split at h <;> simp [h]

theorem submit_ok_eq {tail : Option ChainEntry} {c e : ChainEntry}
    (h : submit tail c = Except.ok e) : e = c := by
  cases tail <;> simp only [submit] at h <;> split_ifs at h <;>
    first
      | exact (typeRule_ok h).1
      | exact Except.noConfusion h

theorem submit_none_ok {c e : ChainEntry} (h : submit none c = Except.ok e) :
    c.entryType = EntryType.Create := by
  simp only [submit] at h
  split_ifs at h with h1 h2 <;>
    first
      | exact not_not.mp h1
      | exact Except.noConfusion h

theorem submit_some_ok {t c e : ChainEntry} (h : submit (some t) c = Except.ok e) :
    c.entryType ≠ EntryType.Create ∧ t.entryType ≠ EntryType.Retire ∧
    verify c.signature (digest c) c.currentOwner = true ∧
    c.previousEntryHash = some (digest t) ∧ c.currentOwner = t.nextOwner ∧
    t.timestamp ≤ c.timestamp := by
  simp only [submit] at h
  split_ifs at h with h1 h2 h3 h4 h5 h6 <;>
    first
      | exact Except.noConfusion h
      | exact ⟨h1, h2, h3, not_not.mp h4, not_not.mp h5, Nat.not_lt.mp h6⟩

theorem submit_of_stepsPass {tail : Option ChainEntry} {c : ChainEntry}
    (h : stepsPass tail c) : submit tail c = typeRule c := by
  unfold stepsPass at h
  cases tail with
  | none =>
      obtain ⟨h1, h2⟩ := h
      simp only [submit]
      rw [if_neg (not_not_intro h1), if_neg (not_not_intro h2)]
  | some t =>
      obtain ⟨h1, h2, h3, h4, h5, h6⟩ := h
      simp only [submit]
      rw [if_neg h1, if_neg h2, if_neg (not_not_intro h3), if_neg (not_not_intro h4),
        if_neg (not_not_intro h5), if_neg (Nat.not_lt.mpr h6)]

theorem submitToStore_ok {s s' : Store} {c : ChainEntry}
    (h : submitToStore s c = Except.ok s') :
    submit (s.tailOf c.productId) c = Except.ok c ∧ s'.log = s.log ++ [c] := by
  cases hs : submit (s.tailOf c.productId) c with
  | ok e =>
      have he : e = c := submit_ok_eq hs
      subst he
      simp only [submitToStore, hs] at h
      cases h
      exact ⟨rfl, rfl⟩
  | error r =>
      simp only [submitToStore, hs] at h
      exact Except.noConfusion h

theorem historyOf_append (l : List ChainEntry) (c : ChainEntry) (pid : String) :
    Store.historyOf ⟨l ++ [c]⟩ pid =
      Store.historyOf ⟨l⟩ pid ++ (if c.productId == pid then [c] else []) := by
  unfold Store.historyOf
  simp only [List.filter_append]
  congr 1
  by_cases hc : c.productId == pid <;> simp [List.filter, hc]

theorem reachable_chain (R : ChainEntry → ChainEntry → Prop)
    (hR : ∀ t c : ChainEntry, submit (some t) c = Except.ok c → R t c) :
    ∀ s : Store, Reachable s → ∀ pid : String, List.Chain' R (s.historyOf pid) := by
  intro s hs
  induction hs with
  | empty => intro pid; simp [Store.historyOf]
  | step hprev hsub ih =>
      rename_i s0 s' c
      intro pid
      obtain ⟨hok, hlog⟩ := submitToStore_ok hsub
      have hs' : s' = ⟨s0.log ++ [c]⟩ := by
        cases s' with
        | mk l => simpa using hlog
      subst hs'
      rw [historyOf_append]
      by_cases hpid : c.productId == pid
      · rw [if_pos hpid]
        apply List.Chain'.append (ih pid) (List.chain'_singleton c)
        intro x hx y hy
        have hy' : c = y := by simpa using hy
        subst hy'
        have hpid' : c.productId = pid := by simpa using hpid
        have htail : s0.tailOf c.productId = some x := by
          unfold Store.tailOf
          rw [hpid']
          exact hx
        rw [htail] at hok
        exact hR x c hok
      · rw [if_neg hpid]
        simpa using ih pid

theorem reachable_head_create :
    ∀ s : Store, Reachable s → ∀ (pid : String) (g : ChainEntry) (l : List ChainEntry),
      s.historyOf pid = g :: l → g.entryType = EntryType.Create := by
  intro s hs
  induction hs with
  | empty => intro pid g l h; simp [Store.historyOf] at h
  | step hprev hsub ih =>
      rename_i s0 s' c
      intro pid g l h
      obtain ⟨hok, hlog⟩ := submitToStore_ok hsub
      have hs' : s' = ⟨s0.log ++ [c]⟩ := by
        cases s' with
        | mk l2 => simpa using hlog
      subst hs'
      rw [historyOf_append] at h
      by_cases hpid : c.productId == pid
      · rw [if_pos hpid] at h
        cases hh : s0.historyOf pid with
        | nil =>
            rw [hh] at h
            simp at h
            have hpid' : c.productId = pid := by simpa using hpid
            have htail : s0.tailOf c.productId = none := by
              unfold Store.tailOf
              rw [hpid', hh]
              rfl
            rw [htail] at hok
            rw [← h.1]
            exact submit_none_ok hok
        | cons g0 l0 =>
            rw [hh] at h
            have hg : g = g0 := by
              have := congrArg List.head? h
              simpa using this.symm
            subst hg
            exact ih pid g l0 hh
      · rw [if_neg hpid] at h
        simp at h
        exact ih pid g l h

end TrueSource

namespace TrueSource

/-- Example genesis entry (product P1, manufacturer M, first owner A),
signed by its authorizer, used to exercise the model on concrete data. -/
def exCreateBase : ChainEntry :=
  ⟨"P1", EntryType.Create, none, "M", "A", 10, "", 0⟩

/-- Example genesis entry with its signature filled in. -/
def exCreate : ChainEntry :=
  { exCreateBase with signature := signWith "M" (digest exCreateBase) }

/-- Store holding the accepted genesis entry. -/
def exStore1 : Store := ⟨[exCreate]⟩

/-- Example transfer A to B correctly linked to the genesis entry. -/
def exTransferBase : ChainEntry :=
  ⟨"P1", EntryType.Transfer, some (digest exCreate), "A", "B", 20, "", 0⟩

/-- Example transfer with its signature filled in. -/
def exTransfer : ChainEntry :=
  { exTransferBase with signature := signWith "A" (digest exTransferBase) }

/-- Store holding the accepted genesis and transfer entries. -/
def exStore2 : Store := ⟨[exCreate, exTransfer]⟩

/-- Example Retire entry used as a closed-chain tail. -/
def exRetireBase : ChainEntry :=
  ⟨"P2", EntryType.Retire, some 7, "B", retireSentinel, 30, "", 0⟩

/-- Example Retire entry with its signature filled in. -/
def exRetire : ChainEntry :=
  { exRetireBase with signature := signWith "B" (digest exRetireBase) }

/-- Example Create entry submitted while a tail already exists. -/
def exAfterRetireBase : ChainEntry :=
  ⟨"P2", EntryType.Create, none, "C", "D", 40, "", 0⟩

/-- Example Create entry with its signature filled in. -/
def exAfterRetire : ChainEntry :=
  { exAfterRetireBase with signature := signWith "C" (digest exAfterRetireBase) }

/-- Example entry whose signature is invalid and whose previousEntryHash
matches no tail digest. -/
def exBadSig : ChainEntry :=
  ⟨"P1", EntryType.Transfer, some 999, "A", "B", 30, "", 5⟩

/-- Example entry with a valid signature but broken linkage. -/
def exBadLinkBase : ChainEntry :=
  ⟨"P1", EntryType.Transfer, some 999, "A", "B", 30, "", 0⟩

/-- Example broken-linkage entry with its signature filled in. -/
def exBadLink : ChainEntry :=
  { exBadLinkBase with signature := signWith "A" (digest exBadLinkBase) }

/-- Example entry breaking ownership continuity against exTransfer. -/
def exBadOwnerBase : ChainEntry :=
  ⟨"P1", EntryType.Transfer, some (digest exTransfer), "Z", "Q", 30, "", 0⟩

/-- Example ownership-breaking entry with its signature filled in. -/
def exBadOwner : ChainEntry :=
  { exBadOwnerBase with signature := signWith "Z" (digest exBadOwnerBase) }

/-- Example entry older than its tail but otherwise valid. -/
def exStaleBase : ChainEntry :=
  ⟨"P1", EntryType.Transfer, some (digest exCreate), "A", "B", 5, "", 0⟩

/-- Example stale entry with its signature filled in. -/
def exStale : ChainEntry :=
  { exStaleBase with signature := signWith "A" (digest exStaleBase) }

/-- Example self-transfer otherwise valid against the genesis tail. -/
def exSelfBase : ChainEntry :=
  ⟨"P1", EntryType.Transfer, some (digest exCreate), "A", "A", 30, "", 0⟩

/-- Example self-transfer with its signature filled in. -/
def exSelf : ChainEntry :=
  { exSelfBase with signature := signWith "A" (digest exSelfBase) }

theorem exStep1 : submitToStore ⟨[]⟩ exCreate = Except.ok exStore1 := by decide

theorem exStep2 : submitToStore exStore1 exTransfer = Except.ok exStore2 := by decide

theorem exReachable2 : Reachable exStore2 :=
  Reachable.step (Reachable.step Reachable.empty exStep1) exStep2

/-- C1: for every accepted chain, every entry with a predecessor has
currentOwner equal to that predecessor's nextOwner (ownership
continuity), and a candidate violating this while the earlier validation
steps pass is rejected as OwnershipMismatch. -/
theorem claim1_ownership_continuity :
    (∀ s : Store, Reachable s → ∀ pid : String,
      List.Chain' (fun a b => b.currentOwner = a.nextOwner) (s.historyOf pid)) ∧
    (∀ t c : ChainEntry,
      c.entryType ≠ EntryType.Create → t.entryType ≠ EntryType.Retire →
      verify c.signature (digest c) c.currentOwner = true →
      c.previousEntryHash = some (digest t) →
      c.currentOwner ≠ t.nextOwner →
      submit (some t) c = Except.error RejectionReason.OwnershipMismatch) := by
  constructor
  · exact reachable_chain _ (fun t c h => (submit_some_ok h).2.2.2.2.1)
  · intro t c h1 h2 h3 h4 h5
    simp only [submit]
    rw [if_neg h1, if_neg h2, if_neg (not_not_intro h3), if_neg (not_not_intro h4), if_pos h5]

theorem claim1_witness :
    List.Chain' (fun a b => b.currentOwner = a.nextOwner) (Store.historyOf exStore2 "P1") ∧
    submit (some exTransfer) exBadOwner = Except.error RejectionReason.OwnershipMismatch :=
  ⟨claim1_ownership_continuity.1 exStore2 exReachable2 "P1",
   claim1_ownership_continuity.2 exTransfer exBadOwner (by decide) (by decide) (by decide)
     (by decide) (by decide)⟩

/-- C2 (amended): a non-Create candidate with a VALID signature whose
previousEntryHash does not match the digest of the existing non-Retire
tail is rejected as LinkageBroken, regardless of the later ownership,
timestamp and type checks; the original claim's "regardless of signature
validity" fails because the signature check short-circuits first. -/
theorem claim2_linkage_broken :
    ∀ t c : ChainEntry,
      c.entryType ≠ EntryType.Create → t.entryType ≠ EntryType.Retire →
      verify c.signature (digest c) c.currentOwner = true →
      c.previousEntryHash ≠ some (digest t) →
      submit (some t) c = Except.error RejectionReason.LinkageBroken := by
  intro t c h1 h2 h3 h4
  simp only [submit]
  rw [if_neg h1, if_neg h2, if_neg (not_not_intro h3), if_pos h4]

/-- C2 counterexample: an entry with broken linkage AND an invalid
signature is rejected as InvalidSignature, not LinkageBroken, because
the signature check (step 3) runs before the linkage check (step 4). -/
theorem claim2_counterexample :
    exBadSig.previousEntryHash ≠ some (digest exCreate) ∧
    submit (some exCreate) exBadSig = Except.error RejectionReason.InvalidSignature ∧
    submit (some exCreate) exBadSig ≠ Except.error RejectionReason.LinkageBroken :=
  ⟨by decide, by decide, by decide⟩

theorem claim2_witness :
    submit (some exCreate) exBadLink = Except.error RejectionReason.LinkageBroken :=
  claim2_linkage_broken exCreate exBadLink (by decide) (by decide) (by decide) (by decide)

/-- C3: a Create entry submitted while the product already has a tail is
rejected as DuplicateGenesis, and when no tail exists only a Create entry
can be accepted. -/
theorem claim3_duplicate_genesis :
    (∀ t c : ChainEntry, c.entryType = EntryType.Create →
      submit (some t) c = Except.error RejectionReason.DuplicateGenesis) ∧
    (∀ c e : ChainEntry, submit none c = Except.ok e →
      c.entryType = EntryType.Create) := by
  constructor
  · intro t c h
    simp only [submit]
    rw [if_pos h]
  · intro c e h
    exact submit_none_ok h

theorem claim3_witness :
    submit (some exTransfer) exAfterRetire = Except.error RejectionReason.DuplicateGenesis ∧
    exCreate.entryType = EntryType.Create :=
  ⟨claim3_duplicate_genesis.1 exTransfer exAfterRetire (by decide),
   claim3_duplicate_genesis.2 exCreate exCreate (by decide)⟩

/-- C4 (amended): a non-Create entry submitted after a Retire tail is
rejected as ChainClosed, while a Create entry after a Retire tail is
rejected as DuplicateGenesis (step 1 fires before step 2); either way
nothing is accepted after a Retire, so in every accepted chain a Retire
entry, if present, is the last entry. -/
theorem claim4_retire_terminal :
    (∀ t c : ChainEntry, t.entryType = EntryType.Retire → c.entryType ≠ EntryType.Create →
      submit (some t) c = Except.error RejectionReason.ChainClosed) ∧
    (∀ t c : ChainEntry, t.entryType = EntryType.Retire → c.entryType = EntryType.Create →
      submit (some t) c = Except.error RejectionReason.DuplicateGenesis) ∧
    (∀ s : Store, Reachable s → ∀ pid : String,
      List.Chain' (fun a _ => a.entryType ≠ EntryType.Retire) (s.historyOf pid)) := by
  refine ⟨?_, ?_, ?_⟩
  · intro t c ht hc
    simp only [submit]
    rw [if_neg hc, if_pos ht]
  · intro t c ht hc
    simp only [submit]
    rw [if_pos hc]
  · exact reachable_chain _ (fun t c h => (submit_some_ok h).2.1)

/-- C4 counterexample: a Create entry submitted after a Retire tail is
rejected as DuplicateGenesis, not ChainClosed, so "any entry after a
Retire yields ChainClosed" fails for Create entries. -/
theorem claim4_counterexample :
    exRetire.entryType = EntryType.Retire ∧
    submit (some exRetire) exAfterRetire = Except.error RejectionReason.DuplicateGenesis ∧
    submit (some exRetire) exAfterRetire ≠ Except.error RejectionReason.ChainClosed :=
  ⟨by decide, by decide, by decide⟩

theorem claim4_witness :
    submit (some exRetire) exBadSig = Except.error RejectionReason.ChainClosed ∧
    List.Chain' (fun a _ => a.entryType ≠ EntryType.Retire) (Store.historyOf exStore2 "P1") :=
  ⟨claim4_retire_terminal.1 exRetire exBadSig (by decide) (by decide),
   claim4_retire_terminal.2.2 exStore2 exReachable2 "P1"⟩

end TrueSource

namespace TrueSource

instance : (c : ChainEntry) → Decidable (typeRuleOk c)
  | ⟨_, EntryType.Create, _, _, _, _, _, _⟩ => inferInstanceAs (Decidable (_ ≠ _))
  | ⟨_, EntryType.Transfer, _, _, _, _, _, _⟩ => inferInstanceAs (Decidable (_ ≠ _))
  | ⟨_, EntryType.Repair, _, _, _, _, _, _⟩ => inferInstanceAs (Decidable (_ = _))
  | ⟨_, EntryType.Retire, _, _, _, _, _, _⟩ => inferInstanceAs (Decidable (_ = _))

/-- C5: an entry is accepted only when the type-specific rule holds
(Repair: nextOwner equals currentOwner; Transfer and Create: nextOwner
differs from currentOwner; Retire: nextOwner is the retirement sentinel);
conversely when steps 1 to 5 pass and the rule holds the entry is
accepted, and a self Transfer or Create reaching step 6 is rejected as
DegenerateTransfer. -/
theorem claim5_type_rule :
    (∀ (tail : Option ChainEntry) (c e : ChainEntry),
      submit tail c = Except.ok e → typeRuleOk c) ∧
    (∀ (tail : Option ChainEntry) (c : ChainEntry),
      stepsPass tail c → typeRuleOk c → submit tail c = Except.ok c) ∧
    (∀ (tail : Option ChainEntry) (c : ChainEntry),
      stepsPass tail c →
      (c.entryType = EntryType.Transfer ∨ c.entryType = EntryType.Create) →
      c.nextOwner = c.currentOwner →
      submit tail c = Except.error RejectionReason.DegenerateTransfer) := by
  refine ⟨?_, ?_, ?_⟩
  · intro tail c e h
    cases tail <;> simp only [submit] at h <;> split_ifs at h <;>
      first
        | exact (typeRule_ok h).2
        | exact Except.noConfusion h
  · intro tail c hp hok
    rw [submit_of_stepsPass hp]
    exact typeRule_of_ok hok
  · intro tail c hp hty hself
    rw [submit_of_stepsPass hp]
    rcases hty with h | h <;> simp [typeRule, h, hself]

theorem claim5_witness :
    typeRuleOk exTransfer ∧
    submit (some exCreate) exTransfer = Except.ok exTransfer ∧
    submit (some exCreate) exSelf = Except.error RejectionReason.DegenerateTransfer :=
  ⟨claim5_type_rule.1 (some exCreate) exTransfer exTransfer (by decide),
   claim5_type_rule.2.1 (some exCreate) exTransfer (by decide) (by decide),
   claim5_type_rule.2.2 (some exCreate) exSelf (by decide) (Or.inl (by decide)) (by decide)⟩

/-- C6: in every accepted chain timestamps are monotonically
non-decreasing between consecutive entries, and a candidate older than
the tail, with the earlier validation steps passing, is rejected as
TimestampRegression. -/
theorem claim6_timestamp_monotonic :
    (∀ s : Store, Reachable s → ∀ pid : String,
      List.Chain' (fun a b => a.timestamp ≤ b.timestamp) (s.historyOf pid)) ∧
    (∀ t c : ChainEntry,
      c.entryType ≠ EntryType.Create → t.entryType ≠ EntryType.Retire →
      verify c.signature (digest c) c.currentOwner = true →
      c.previousEntryHash = some (digest t) → c.currentOwner = t.nextOwner →
      c.timestamp < t.timestamp →
      submit (some t) c = Except.error RejectionReason.TimestampRegression) := by
  constructor
  · exact reachable_chain _ (fun t c h => (submit_some_ok h).2.2.2.2.2)
  · intro t c h1 h2 h3 h4 h5 h6
    simp only [submit]
    rw [if_neg h1, if_neg h2, if_neg (not_not_intro h3), if_neg (not_not_intro h4),
      if_neg (not_not_intro h5), if_pos h6]

theorem claim6_witness :
    List.Chain' (fun a b => a.timestamp ≤ b.timestamp) (Store.historyOf exStore2 "P1") ∧
    submit (some exCreate) exStale = Except.error RejectionReason.TimestampRegression :=
  ⟨claim6_timestamp_monotonic.1 exStore2 exReachable2 "P1",
   claim6_timestamp_monotonic.2 exCreate exStale (by decide) (by decide) (by decide)
     (by decide) (by decide) (by decide)⟩

/-- C8: for every reachable store, a non-empty product history starts
with a Create (genesis) entry, and a successful submission appends the
accepted entry at the end of its product's history, so histories list
entries in creation order, oldest first. -/
theorem claim8_history_genesis_first :
    (∀ s : Store, Reachable s → ∀ (pid : String) (g : ChainEntry) (l : List ChainEntry),
      s.historyOf pid = g :: l → g.entryType = EntryType.Create) ∧
    (∀ (s s' : Store) (c : ChainEntry), submitToStore s c = Except.ok s' →
      s'.historyOf c.productId = s.historyOf c.productId ++ [c]) := by
  constructor
  · exact reachable_head_create
  · intro s s' c h
    obtain ⟨hok, hlog⟩ := submitToStore_ok h
    have hs' : s' = ⟨s.log ++ [c]⟩ := by
      cases s' with
      | mk l => simpa using hlog
    subst hs'
    rw [historyOf_append]
    simp

theorem claim8_witness :
    exCreate.entryType = EntryType.Create ∧
    Store.historyOf exStore2 exTransfer.productId =
      Store.historyOf exStore1 exTransfer.productId ++ [exTransfer] :=
  ⟨claim8_history_genesis_first.1 exStore2 exReachable2 "P1" exCreate [exTransfer] (by decide),
   claim8_history_genesis_first.2 exStore1 exStore2 exTransfer exStep2⟩

/-- C9: the Query Engine rejects a raw query whose set time-range bounds
are out of order (start greater than end) as InvalidRange without
scanning, and otherwise delegates to scan with the same filter options. -/
theorem claim9_query_range :
    (∀ (s : Store) (q : RawQuery) (a b : Nat),
      q.startTime = some a → q.endTime = some b → b < a →
      query s q = Except.error RejectionReason.InvalidRange) ∧
    (∀ (s : Store) (q : RawQuery),
      (∀ a b : Nat, q.startTime = some a → q.endTime = some b → a ≤ b) →
      query s q = Except.ok (scan s ⟨q.owner, q.previousOwner, q.startTime, q.endTime⟩)) := by
  constructor
  · intro s q a b ha hb hab
    simp [query, ha, hb, hab]
  · intro s q hmono
    rcases hs : q.startTime with _ | a <;> rcases he : q.endTime with _ | b
    · simp [query, hs, he]
    · simp [query, hs, he]
    · simp [query, hs, he]
    · have hba : ¬ b < a := Nat.not_lt.mpr (hmono a b hs he)
      simp [query, hs, he, hba]

theorem claim9_witness :
    query exStore2 ⟨none, none, some 5, some 3⟩ = Except.error RejectionReason.InvalidRange ∧
    query exStore2 ⟨some "B", none, some 1, some 9⟩ =
      Except.ok (scan exStore2 ⟨some "B", none, some 1, some 9⟩) :=
  ⟨claim9_query_range.1 exStore2 ⟨none, none, some 5, some 3⟩ 5 3 rfl rfl (by decide),
   claim9_query_range.2 exStore2 ⟨some "B", none, some 1, some 9⟩
     (fun a b ha hb => by
       injection ha with ha2
       injection hb with hb2
       omega)⟩

end TrueSource

namespace TrueSource

theorem matchesFilter_iff (f : ScanFilter) (e : ChainEntry) :
    matchesFilter f e = true ↔
      ((∀ o : String, f.owner = some o → (e.currentOwner = o ∨ e.nextOwner = o)) ∧
       (∀ o : String, f.previousOwner = some o → e.currentOwner = o) ∧
       (∀ t0 : Nat, f.timeRangeStart = some t0 → t0 ≤ e.timestamp) ∧
       (∀ t1 : Nat, f.timeRangeEnd = some t1 → e.timestamp ≤ t1)) := by
  rcases f with ⟨ow, po, t0, t1⟩
  unfold matchesFilter
  cases ow <;> cases po <;> cases t0 <;> cases t1 <;> simp [and_assoc]

/-- C7: scan returns exactly the stored entries matching every set filter
option (owner matching currentOwner or nextOwner, previousOwner matching
currentOwner, inclusive timestamp bounds, unset options unconstrained,
all ANDed), ordered by timestamp most-recent-first; in particular a scan
with owner B and timeRangeStart t0 returns exactly the entries where B is
currentOwner or nextOwner and the timestamp is at least t0. -/
theorem claim7_scan_filter :
    ∀ (s : Store) (f : ScanFilter),
      List.Perm (scan s f) (List.filter (matchesFilter f) s.log) ∧
      List.Sorted moreRecentFirst (scan s f) ∧
      (∀ e : ChainEntry, e ∈ scan s f ↔ e ∈ s.log ∧
        ((∀ o : String, f.owner = some o → (e.currentOwner = o ∨ e.nextOwner = o)) ∧
         (∀ o : String, f.previousOwner = some o → e.currentOwner = o) ∧
         (∀ t0 : Nat, f.timeRangeStart = some t0 → t0 ≤ e.timestamp) ∧
         (∀ t1 : Nat, f.timeRangeEnd = some t1 → e.timestamp ≤ t1))) ∧
      (∀ (b : String) (t0 : Nat) (e : ChainEntry),
        e ∈ scan s ⟨some b, none, some t0, none⟩ ↔
          e ∈ s.log ∧ (e.currentOwner = b ∨ e.nextOwner = b) ∧ t0 ≤ e.timestamp) := by
  intro s f
  refine ⟨List.perm_insertionSort _ _, List.sorted_insertionSort _ _, ?_, ?_⟩
  · intro e
    unfold scan
    rw [(List.perm_insertionSort moreRecentFirst
        (List.filter (matchesFilter f) s.log)).mem_iff,
      List.mem_filter, matchesFilter_iff]
  · intro b t0 e
    unfold scan
    rw [(List.perm_insertionSort moreRecentFirst
        (List.filter (matchesFilter ⟨some b, none, some t0, none⟩) s.log)).mem_iff,
      List.mem_filter, matchesFilter_iff]
    simp

theorem claim7_witness :
    exTransfer ∈ scan exStore2 ⟨some "B", none, some 15, none⟩ ↔
      exTransfer ∈ exStore2.log ∧
      (exTransfer.currentOwner = "B" ∨ exTransfer.nextOwner = "B") ∧
      15 ≤ exTransfer.timestamp :=
  (claim7_scan_filter exStore2 ⟨some "B", none, some 15, none⟩).2.2.2 "B" 15 exTransfer

end TrueSource

namespace Frontend

/-- C10: each front-end submission handler (createProduct,
transferProduct, recordRepair) first checks the connected flag and, when
no wallet is connected, returns the wallet error message without issuing
any API request; consequently, under the wallet-adapter invariant that a
connected wallet has a public key, publicKey.toString() is never
evaluated on a null key and no handler crashes. -/
theorem claim10_wallet_guard :
    ∀ (w : WalletState) (p1 m1 p2 o2 p3 m3 : String),
      (w.connected = false →
        createProduct w p1 m1 = SubmitOutcome.walletError "Please connect your wallet first" ∧
        transferProduct w p2 o2 = SubmitOutcome.walletError "Please connect your wallet first" ∧
        recordRepair w p3 m3 = SubmitOutcome.walletError "Please connect your wallet first") ∧
      ((w.connected = true → w.publicKey.isSome = true) →
        createProduct w p1 m1 ≠ SubmitOutcome.crash ∧
        transferProduct w p2 o2 ≠ SubmitOutcome.crash ∧
        recordRepair w p3 m3 ≠ SubmitOutcome.crash) := by
  intro w p1 m1 p2 o2 p3 m3
  constructor
  · intro hconn
    refine ⟨?_, ?_, ?_⟩ <;>
      simp [createProduct, transferProduct, recordRepair, hconn]
  · intro hsome
    cases hw : w.connected with
    | false =>
        refine ⟨?_, ?_, ?_⟩ <;>
          simp [createProduct, transferProduct, recordRepair, hw]
    | true =>
        obtain ⟨pk, hpk⟩ := Option.isSome_iff_exists.mp (hsome hw)
        refine ⟨?_, ?_, ?_⟩ <;>
          simp [createProduct, transferProduct, recordRepair, pkToString, hw, hpk]

theorem claim10_witness :
    createProduct ⟨none, false⟩ "p" "m" =
      SubmitOutcome.walletError "Please connect your wallet first" ∧
    createProduct ⟨some "K", true⟩ "p" "m" ≠ SubmitOutcome.crash :=
  ⟨((claim10_wallet_guard ⟨none, false⟩ "p" "m" "p" "o" "p" "m").1 rfl).1,
   ((claim10_wallet_guard ⟨some "K", true⟩ "p" "m" "p" "o" "p" "m").2 (fun _ => rfl)).1⟩

end Frontend
